import Mathlib

/-!
Verification development for the godartsass transpiler core.

Go source files are shallowly embedded: strings are modelled as lists of
Unicode scalar values (`List Nat`), Go maps as association lists with
insert-overwrite semantics, and the concurrent transpiler as a state
machine whose steps mirror the critical sections of the Go code
(`newCall`, the reader loop's dispatch arms, `Close`, and the reader
loop's shutdown sweep).
-/

namespace Godartsass

/-- Strings are modelled as lists of Unicode scalar values. -/
abbrev Str := List Nat

/-- Convert a Lean string literal to the model representation. -/
def str (s : String) : Str := s.toList.map Char.toNat

/-- Model of Go `strings.Contains`: `pat` occurs as a contiguous
substring of `hay` (the empty pattern always occurs). -/
def hasSubstring (hay pat : Str) : Bool :=
  pat.isPrefixOf hay ||
    match hay with
    | [] => false
    | _ :: t => hasSubstring t pat

/-- Model of `strings.ToUpper` on a single scalar value, restricted to
ASCII (the inputs compared against in `options.go` are all ASCII). -/
def toUpperChar (c : Nat) : Nat :=
  if 97 ≤ c ∧ c ≤ 122 then c - 32 else c

/-- Model of `strings.ToUpper` (ASCII fragment). -/
def toUpperStr (s : Str) : Str := s.map toUpperChar

/-! ## options.go: output styles and source syntaxes -/

/-- `ParseOutputStyle` from options.go: switch on the upper-cased input
over NESTED, COMPACT, COMPRESSED, EXPANDED, defaulting to NESTED. -/
def ParseOutputStyle (s : Str) : Str :=
  if toUpperStr s = str "NESTED" then str "NESTED"
  else if toUpperStr s = str "COMPACT" then str "COMPACT"
  else if toUpperStr s = str "COMPRESSED" then str "COMPRESSED"
  else if toUpperStr s = str "EXPANDED" then str "EXPANDED"
  else str "NESTED"

/-- `ParseSourceSyntax` from options.go: switch on the upper-cased input
over SCSS, INDENTED-or-SASS, CSS, defaulting to SCSS. -/
def ParseSourceSyntax (s : Str) : Str :=
  if toUpperStr s = str "SCSS" then str "SCSS"
  else if toUpperStr s = str "INDENTED" ∨ toUpperStr s = str "SASS" then str "INDENTED"
  else if toUpperStr s = str "CSS" then str "CSS"
  else str "SCSS"

/-- Keys/values of the generated protobuf enum map
`InboundMessage_CompileRequest_OutputStyle_value` (the wire schema is an
externally defined collaborator; the key set matches the `OutputStyle`
constants in options.go). -/
def outputStyleValue (s : Str) : Option Nat :=
  if s = str "EXPANDED" then some 0
  else if s = str "COMPRESSED" then some 1
  else if s = str "NESTED" then some 2
  else if s = str "COMPACT" then some 3
  else none

/-- Keys/values of the generated protobuf enum map `Syntax_value`
(externally defined wire schema; key set matches the `SourceSyntax`
constants in options.go). -/
def syntaxValue (s : Str) : Option Nat :=
  if s = str "SCSS" then some 0
  else if s = str "INDENTED" then some 1
  else if s = str "CSS" then some 2
  else none

/-! ## conn.go: stderr tail buffer and child wait -/

/-- `tailBuffer.Write` from conn.go: if the incoming chunk plus the
buffered bytes exceed the limit, the whole buffer is reset before the
chunk is appended. -/
def tailWrite (limit : Nat) (buf p : List Nat) : List Nat :=
  if p.length + buf.length > limit then p else buf ++ p

/-- A sequence of writes against an initially empty tail buffer. -/
def tailWrites (limit : Nat) (ws : List (List Nat)) : List Nat :=
  ws.foldl (tailWrite limit) []

/-- Result of `cmd.Wait` as observed by `conn.waitWithTimeout`: either a
nonzero exit status (`*exec.ExitError`), some other error, or none. -/
inductive WaitErr
  | exitError (msg : Str)
  | otherErr (msg : Str)
  deriving DecidableEq, Repr

/-- The regular expression `brokenPipeRe` from conn.go,
`Broken pipe|pipe is being closed`: an unanchored alternation of two
literals, so matching is substring occurrence of either literal. -/
def brokenPipeMatch (tail : Str) : Bool :=
  hasSubstring tail (str "Broken pipe") || hasSubstring tail (str "pipe is being closed")

/-- The wait step of `conn.waitWithTimeout` (conn.go) once `cmd.Wait`
has delivered its result (the one-second timeout branch returns a
separate timed-out error and is not modelled here): a nonzero exit whose
captured stderr tail matches `brokenPipeRe` is suppressed to nil; any
other result is returned as-is. -/
def waitResult (w : Option WaitErr) (stderrTail : Str) : Option WaitErr :=
  match w with
  | some (WaitErr.exitError m) =>
      if brokenPipeMatch stderrTail then none else some (WaitErr.exitError m)
  | e => e

/-- The broken-pipe pattern as worded by the claim: "broken pipe" or
"pipe being closed". Stated from the spec's words, to be compared with
`brokenPipeMatch` from the source. -/
def claimBrokenPipePattern (tail : Str) : Bool :=
  hasSubstring tail (str "broken pipe") || hasSubstring tail (str "pipe being closed")

/-! ## transpiler.go: errors, the pending-call registry and its state machine

The registry-relevant critical sections of transpiler.go are embedded as
functions on a state record. Each pending call is identified by a ghost
reference (`total` at registration time), so that completion routing can
be stated exactly. `total`, `regLog` and `wire` are ghost
instrumentation: `total` counts successful registrations, `regLog` logs
each registration as an `(id, ref)` pair in order, and `wire` logs the
id of every compile-request frame handed to the writer. -/

/-- Model of the Go error values flowing through transpiler.go. -/
inductive GoErr
  | eof
  | unexpectedEOF
  | errShutdown
  | validation (msg : Str)
  | other (msg : Str)
  deriving DecidableEq, Repr

/-- The text `err.Error()` of a modelled error value. -/
def GoErr.text : GoErr → Str
  | GoErr.eof => str "EOF"
  | GoErr.unexpectedEOF => str "unexpected EOF"
  | GoErr.errShutdown => str "connection is shut down"
  | GoErr.validation m => m
  | GoErr.other m => m

/-- Go map insert (overwrite semantics) on an association list. -/
def mapInsert (m : List (Nat × Nat)) (k v : Nat) : List (Nat × Nat) :=
  (k, v) :: m.filter (fun p => p.1 != k)

/-- Go map delete on an association list. -/
def mapDelete (m : List (Nat × Nat)) (k : Nat) : List (Nat × Nat) :=
  m.filter (fun p => p.1 != k)

/-- Go map lookup on an association list. -/
def mapLookup (m : List (Nat × Nat)) (k : Nat) : Option Nat :=
  (m.find? (fun p => p.1 == k)).map Prod.snd

/-- 2^32: the modulus of the `uint32` id counter `Transpiler.seq`. -/
def U32 : Nat := 4294967296

/-- `Args` for Execute: the caller-facing strings that take part in
validation (source text, source syntax, output style; empty means
unset, to be defaulted by `init`). -/
structure Args where
  source : Str
  sourceSyntax : Str
  outputStyle : Str
  deriving DecidableEq, Repr

/-- The numeric wire values computed by a successful `init`. -/
structure ValidArgs where
  styleNum : Nat
  syntaxNum : Nat
  deriving DecidableEq, Repr

/-- `executeArgs.init` from options.go: default empty style/syntax to
NESTED/SCSS, then validate both against the generated enum maps,
failing with `invalid OutputStyle %q` / `invalid SourceSyntax %q`. -/
def argsInit (a : Args) : Except GoErr ValidArgs :=
  match outputStyleValue (if a.outputStyle = [] then str "NESTED" else a.outputStyle) with
  | none => Except.error (GoErr.validation (str "invalid OutputStyle \x22"
      ++ (if a.outputStyle = [] then str "NESTED" else a.outputStyle) ++ str "\x22"))
  | some v =>
    match syntaxValue (if a.sourceSyntax = [] then str "SCSS" else a.sourceSyntax) with
    | none => Except.error (GoErr.validation (str "invalid SourceSyntax \x22"
        ++ (if a.sourceSyntax = [] then str "SCSS" else a.sourceSyntax) ++ str "\x22"))
    | some w => Except.ok ⟨v, w⟩

/-- Registry-relevant state of a `Transpiler` (transpiler.go), with
ghost instrumentation (`total`, `regLog`, `wire`). -/
structure TState where
  seq : Nat
  pending : List (Nat × Nat)
  closing : Bool
  shutdown : Bool
  total : Nat
  regLog : List (Nat × Nat)
  wire : List Nat
  deriving DecidableEq, Repr

/-- The state created by `Start`. -/
def initState : TState := ⟨0, [], false, false, 0, [], []⟩

/-- Result of `Transpiler.newCall` as seen by Execute: a validation
error from `createInbound` (the call is not registered), a call
completed immediately with ErrShutdown (not registered), or a
registered call with its id and ghost reference. -/
inductive CallOutcome
  | invalidArgs (e : GoErr)
  | shutdownCall
  | registered (id ref : Nat)
  deriving DecidableEq, Repr

/-- `Transpiler.newCall` (transpiler.go lines 442-477): capture the
current `seq` as the id; build the inbound message (running `init`,
which can fail); fail fast with an ErrShutdown-completed call if
`shutdown || closing`; otherwise store the call under the id, increment
the 32-bit counter, stamp the id into the request and hand the frame to
the writer. -/
def newCallModel (s : TState) (a : Args) : TState × CallOutcome :=
  match argsInit a with
  | Except.error e => (s, CallOutcome.invalidArgs e)
  | Except.ok _ =>
    if s.shutdown || s.closing then (s, CallOutcome.shutdownCall)
    else
      ({ s with
          pending := mapInsert s.pending s.seq s.total
          seq := (s.seq + 1) % U32
          total := s.total + 1
          regLog := s.regLog ++ [(s.seq, s.total)]
          wire := s.wire ++ [s.seq] },
        CallOutcome.registered s.seq s.total)

/-- The immediate outcome of `Transpiler.Execute` as far as the
registry is concerned: an error returned to the caller, or a registered
call awaiting its response. -/
inductive ExecResult
  | err (e : GoErr)
  | awaiting (id ref : Nat)
  deriving DecidableEq, Repr

/-- `Transpiler.Execute` up to the wait on the completion channel: a
`newCall` error is returned as-is; a call completed with ErrShutdown
delivers that error; a registered call awaits its response. -/
def executeModel (s : TState) (a : Args) : TState × ExecResult :=
  match newCallModel s a with
  | (s', CallOutcome.invalidArgs e) => (s', ExecResult.err e)
  | (s', CallOutcome.shutdownCall) => (s', ExecResult.err GoErr.errShutdown)
  | (s', CallOutcome.registered id ref) => (s', ExecResult.awaiting id ref)

/-- `Transpiler.Close` (transpiler.go lines 171-185): ErrShutdown if
already closing, otherwise set `closing` and return the connection's
close result. -/
def closeT (s : TState) (connCloseErr : Option GoErr) : TState × Option GoErr :=
  if s.closing then (s, some GoErr.errShutdown)
  else ({ s with closing := true }, connCloseErr)

/-- The reader loop's CompileResponse arm (transpiler.go lines
298-311): look up the id in the pending map, delete it, and complete
the found call (`none` means the reader terminates with the
call-not-found error). -/
def respondCompile (s : TState) (id : Nat) : TState × Option Nat :=
  ({ s with pending := mapDelete s.pending id }, mapLookup s.pending id)

/-- Error classification after the reader loop exits (transpiler.go
line 427-434): EOF or an error whose text contains "already closed"
becomes ErrShutdown when `closing` is set, otherwise UnexpectedEOF; any
other error is kept as-is. -/
def classifyExit (closing : Bool) (e : GoErr) : GoErr :=
  if e = GoErr.eof ∨ hasSubstring e.text (str "already closed") = true then
    if closing then GoErr.errShutdown else GoErr.unexpectedEOF
  else e

/-- The reader loop's shutdown sweep (transpiler.go lines 420-440): set
`shutdown`, classify the terminating error, and complete every pending
call with the classified error by setting its error slot and signalling
it — the sweep does not delete the entries from the map (`IsShutDown`
relies on them remaining). Returns the new state, the classified error,
and the completion list (ghost reference paired with the error each
call was completed with). -/
def loopExit (s : TState) (e : GoErr) : TState × GoErr × List (Nat × GoErr) :=
  let err := classifyExit s.closing e
  ({ s with shutdown := true }, err,
    s.pending.map (fun p => (p.2, err)))

/-- One interleaving step of the transpiler: an Execute submission, a
CompileResponse from the reader, a Close, or the reader loop's exit. -/
inductive Step : TState → TState → Prop
  | execute (s : TState) (a : Args) : Step s (executeModel s a).1
  | respond (s : TState) (id : Nat) : Step s (respondCompile s id).1
  | close (s : TState) (connCloseErr : Option GoErr) : Step s (closeT s connCloseErr).1
  | exitLoop (s : TState) (e : GoErr) : Step s (loopExit s e).1

/-- States reachable from a freshly started transpiler. -/
def Reachable (s : TState) : Prop := Relation.ReflTransGen Step initState s

/-- Inductive invariant of the registry: `seq` is the 32-bit residue of
the registration count, the registration log records exactly ids
`0 % 2^32, 1 % 2^32, …`, pending ids are pairwise distinct, and every
pending entry was registered. -/
def Inv (s : TState) : Prop :=
  s.seq = s.total % U32
  ∧ s.regLog = (List.range s.total).map (fun n => (n % U32, n))
  ∧ (s.pending.map Prod.fst).Nodup
  ∧ ∀ p ∈ s.pending, p ∈ s.regLog

/-! ## Reader loop callback arms: canonicalize and import -/

/-- Decimal rendering of a compilation id, as `fmt.Sprintf("%d", id)`. -/
def natStr (n : Nat) : Str := str (toString n)

/-- The panic message of `Transpiler.getCall` (transpiler.go lines
259-267), `fmt.Sprintf("call with ID %d not found", id)`. -/
def callNotFoundMsg (id : Nat) : Str :=
  str "call with ID " ++ natStr id ++ str " not found"

/-- The `Import` record returned by `ImportResolver.Load`: content plus
source-syntax tag. -/
structure ImportRec where
  content : Str
  sourceSyntax : Str

/-- A per-call `ImportResolver`, modelled as its two response
functions (`CanonicalizeURL` and `Load`, each returning a value or an
error). -/
structure Resolver where
  canonicalizeURL : Str → Except Str Str
  load : Str → Except Str ImportRec

/-- Lookup of the call record (here: its resolver) by compilation id. -/
def lookupResolver (m : List (Nat × Resolver)) (k : Nat) : Option Resolver :=
  (m.find? (fun p => p.1 == k)).map Prod.snd

/-- Outcome of one reader-loop dispatch arm: either the goroutine
panics (no recoverable error is produced), or an inbound reply is built
and handed to the writer. -/
inductive ArmResult (α : Type)
  | panicked (msg : Str)
  | reply (r : α)
  deriving DecidableEq

/-- The result variant of an inbound CanonicalizeResponse: absent url
("not handled"), a url, or a textual error. -/
inductive CanonResult
  | absent
  | url (u : Str)
  | err (e : Str)
  deriving DecidableEq, Repr

/-- An inbound CanonicalizeResponse: the request's own id plus the
result variant. -/
structure CanonResponse where
  id : Nat
  result : CanonResult
  deriving DecidableEq, Repr

/-- The CanonicalizeRequest arm of the reader loop (transpiler.go lines
312-343): `getCall` the compilation id (panicking when absent), invoke
the resolver; an error becomes a textual-error result, an empty string
becomes an absent url, and a non-empty string is echoed as the url. -/
def canonicalizeArm (pending : List (Nat × Resolver)) (compId reqId : Nat)
    (u : Str) : ArmResult CanonResponse :=
  match lookupResolver pending compId with
  | none => ArmResult.panicked (callNotFoundMsg compId)
  | some r =>
    match r.canonicalizeURL u with
    | Except.error e => ArmResult.reply ⟨reqId, CanonResult.err e⟩
    | Except.ok resolved =>
      if resolved = [] then ArmResult.reply ⟨reqId, CanonResult.absent⟩
      else ArmResult.reply ⟨reqId, CanonResult.url resolved⟩

/-- Scheme detection of `hasScheme` (transpiler.go lines 527-533),
which parses via `url.ParseRequestURI` (standard library, an external
collaborator) and tests `u.Scheme != ""`: the string must start with an
ASCII letter, followed by letters, digits, `+`, `-` or `.`, terminated
by `:`. A rooted path or anything else yields no scheme. The boolean
argument tracks whether we are at the first byte. -/
def hasSchemeAux : Str → Bool → Bool
  | [], _ => false
  | c :: rest, first =>
    if (65 ≤ c ∧ c ≤ 90) ∨ (97 ≤ c ∧ c ≤ 122) then hasSchemeAux rest false
    else if (48 ≤ c ∧ c ≤ 57) ∨ c = 43 ∨ c = 45 ∨ c = 46 then
      if first then false else hasSchemeAux rest false
    else if c = 58 then !first
    else false

/-- `hasScheme` from transpiler.go. -/
def hasScheme (s : Str) : Bool := hasSchemeAux s true

/-- The result variant of an inbound ImportResponse: a success payload
(contents, source-map url, numeric syntax tag) or a textual error. -/
inductive ImportResult
  | success (contents sourceMapUrl : Str) (syntaxTag : Nat)
  | err (e : Str)
  deriving DecidableEq, Repr

/-- An inbound ImportResponse: the request's own id plus the result. -/
structure ImportResponse where
  id : Nat
  result : ImportResult
  deriving DecidableEq, Repr

/-- The ImportRequest arm of the reader loop (transpiler.go lines
344-386): `getCall` the compilation id (panicking when absent), invoke
the resolver's Load; the source-map url is the requested url exactly
when it has a scheme, else empty; a Load error becomes a textual-error
result, a success carries the content and the `Syntax_value` tag of the
returned source syntax (0 when unknown, as for a missing Go map key). -/
def importArm (pending : List (Nat × Resolver)) (compId reqId : Nat)
    (u : Str) : ArmResult ImportResponse :=
  match lookupResolver pending compId with
  | none => ArmResult.panicked (callNotFoundMsg compId)
  | some r =>
    match r.load u with
    | Except.error e => ArmResult.reply ⟨reqId, ImportResult.err e⟩
    | Except.ok imp =>
      ArmResult.reply ⟨reqId, ImportResult.success imp.content
        (if hasScheme u then u else []) ((syntaxValue imp.sourceSyntax).getD 0)⟩

/-- A concrete resolver used to exercise the canonicalize arm. -/
def canonResolverW : Resolver :=
  ⟨fun u => if u = str "colors" then Except.ok (str "file:/c.scss")
    else if u = str "missing" then Except.error (str "cannot resolve")
    else Except.ok [],
  fun _ => Except.error (str "unused")⟩

/-- A concrete resolver used to exercise the import arm. -/
def importResolverW : Resolver :=
  ⟨fun _ => Except.ok [],
  fun u => if u = str "file:/c.scss" then Except.ok ⟨str "a\x7bb:c\x7d", str "SCSS"⟩
    else if u = str "/bare/path" then Except.ok ⟨str "x\x7by:z\x7d", str "INDENTED"⟩
    else Except.error (str "open failed")⟩

/-! ## Theorems -/

theorem toUpperChar_idem (c : Nat) : toUpperChar (toUpperChar c) = toUpperChar c := by
  unfold toUpperChar
  split
  · split <;> omega
  · rfl

theorem toUpperStr_idem (s : Str) : toUpperStr (toUpperStr s) = toUpperStr s := by
  unfold toUpperStr
  rw [List.map_map]
  exact List.map_congr_left fun c _ => toUpperChar_idem c

theorem ParseOutputStyle_toUpper (s : Str) :
    ParseOutputStyle (toUpperStr s) = ParseOutputStyle s := by
  unfold ParseOutputStyle
  rw [toUpperStr_idem]

theorem ParseSourceSyntax_toUpper (s : Str) :
    ParseSourceSyntax (toUpperStr s) = ParseSourceSyntax s := by
  unfold ParseSourceSyntax
  rw [toUpperStr_idem]

theorem ParseOutputStyle_mem (s : Str) :
    ParseOutputStyle s = str "NESTED" ∨ ParseOutputStyle s = str "COMPACT" ∨
      ParseOutputStyle s = str "COMPRESSED" ∨ ParseOutputStyle s = str "EXPANDED" := by
  unfold ParseOutputStyle
  split_ifs <;> simp

theorem ParseOutputStyle_idem (s : Str) :
    ParseOutputStyle (ParseOutputStyle s) = ParseOutputStyle s := by
  rcases ParseOutputStyle_mem s with h | h | h | h <;> rw [h] <;> decide

theorem ParseOutputStyle_default (s : Str)
    (h1 : toUpperStr s ≠ str "NESTED") (h2 : toUpperStr s ≠ str "COMPACT")
    (h3 : toUpperStr s ≠ str "COMPRESSED") (h4 : toUpperStr s ≠ str "EXPANDED") :
    ParseOutputStyle s = str "NESTED" := by
  unfold ParseOutputStyle
  rw [if_neg h1, if_neg h2, if_neg h3, if_neg h4]

theorem ParseSourceSyntax_mem (s : Str) :
    ParseSourceSyntax s = str "SCSS" ∨ ParseSourceSyntax s = str "INDENTED" ∨
      ParseSourceSyntax s = str "CSS" := by
  unfold ParseSourceSyntax
  split_ifs <;> simp

theorem ParseSourceSyntax_idem (s : Str) :
    ParseSourceSyntax (ParseSourceSyntax s) = ParseSourceSyntax s := by
  rcases ParseSourceSyntax_mem s with h | h | h <;> rw [h] <;> decide

theorem ParseSourceSyntax_default (s : Str)
    (h1 : toUpperStr s ≠ str "SCSS") (h2 : toUpperStr s ≠ str "INDENTED")
    (h3 : toUpperStr s ≠ str "SASS") (h4 : toUpperStr s ≠ str "CSS") :
    ParseSourceSyntax s = str "SCSS" := by
  unfold ParseSourceSyntax
  rw [if_neg h1, if_neg _, if_neg h4]
  intro h
  rcases h with h | h
  · exact h2 h
  · exact h3 h

theorem ParseSourceSyntax_indented (s : Str)
    (h : toUpperStr s = str "SASS" ∨ toUpperStr s = str "INDENTED") :
    ParseSourceSyntax s = str "INDENTED" := by
  unfold ParseSourceSyntax
  have hne : toUpperStr s ≠ str "SCSS" := by
    rcases h with h | h <;> rw [h] <;> decide
  rw [if_neg hne, if_pos (by tauto)]

/-- C9: `ParseOutputStyle` is case-insensitive and idempotent and maps
every unknown input to the default output style NESTED; likewise
`ParseSourceSyntax` is case-insensitive and idempotent, maps unknown
inputs to the SCSS default, and maps both "SASS" and "INDENTED" (in any
case) to the indented-syntax value. -/
theorem claim9_parse_functions :
    (∀ s : Str, ParseOutputStyle (toUpperStr s) = ParseOutputStyle s)
    ∧ (∀ s : Str, ParseOutputStyle (ParseOutputStyle s) = ParseOutputStyle s)
    ∧ (∀ s : Str, toUpperStr s ≠ str "NESTED" → toUpperStr s ≠ str "COMPACT" →
        toUpperStr s ≠ str "COMPRESSED" → toUpperStr s ≠ str "EXPANDED" →
        ParseOutputStyle s = str "NESTED")
    ∧ (∀ s : Str, ParseSourceSyntax (toUpperStr s) = ParseSourceSyntax s)
    ∧ (∀ s : Str, ParseSourceSyntax (ParseSourceSyntax s) = ParseSourceSyntax s)
    ∧ (∀ s : Str, toUpperStr s ≠ str "SCSS" → toUpperStr s ≠ str "INDENTED" →
        toUpperStr s ≠ str "SASS" → toUpperStr s ≠ str "CSS" →
        ParseSourceSyntax s = str "SCSS")
    ∧ (∀ s : Str, toUpperStr s = str "SASS" ∨ toUpperStr s = str "INDENTED" →
        ParseSourceSyntax s = str "INDENTED") :=
  ⟨ParseOutputStyle_toUpper, ParseOutputStyle_idem,
    fun s h1 h2 h3 h4 => ParseOutputStyle_default s h1 h2 h3 h4,
    ParseSourceSyntax_toUpper, ParseSourceSyntax_idem,
    fun s h1 h2 h3 h4 => ParseSourceSyntax_default s h1 h2 h3 h4,
    fun s h => ParseSourceSyntax_indented s h⟩

/-- C9 witness: the parse functions evaluated at concrete inputs via the
claim theorem. -/
theorem claim9_parse_functions_witness :
    ParseOutputStyle (str "foo") = str "NESTED"
    ∧ ParseSourceSyntax (str "foo") = str "SCSS"
    ∧ ParseSourceSyntax (str "sAsS") = str "INDENTED"
    ∧ ParseOutputStyle (toUpperStr (str "comPressed")) = ParseOutputStyle (str "comPressed") :=
  ⟨claim9_parse_functions.2.2.1 (str "foo") (by decide) (by decide) (by decide) (by decide),
    claim9_parse_functions.2.2.2.2.2.1 (str "foo") (by decide) (by decide) (by decide) (by decide),
    claim9_parse_functions.2.2.2.2.2.2 (str "sAsS") (Or.inl (by decide)),
    claim9_parse_functions.1 (str "comPressed")⟩

theorem tailWrite_length_le (limit : Nat) (buf p : List Nat)
    (hp : p.length ≤ limit) : (tailWrite limit buf p).length ≤ limit := by
  unfold tailWrite
  split
  · exact hp
  · simp only [List.length_append]
    omega

theorem tailWrites_go (limit : Nat) :
    ∀ (ws : List (List Nat)) (buf : List Nat), buf.length ≤ limit →
      (∀ w ∈ ws, w.length ≤ limit) → (ws.foldl (tailWrite limit) buf).length ≤ limit
  | [], _, hb, _ => hb
  | w :: ws, buf, _, hw => by
      rw [List.foldl_cons]
      exact tailWrites_go limit ws _
        (tailWrite_length_le limit buf w (hw w (List.mem_cons_self w ws)))
        (fun v hv => hw v (List.mem_cons_of_mem w hv))

/-- C7 counterexample: with the configured limit of 1024 bytes
(conn.go), a single 1025-byte write leaves the tail buffer holding 1025
bytes, exceeding the limit. -/
theorem claim7_counterexample :
    1024 < (tailWrites 1024 [List.replicate 1025 66]).length := by
  unfold tailWrites
  rw [List.foldl_cons, List.foldl_nil]
  unfold tailWrite
  rw [if_pos (by simp only [List.length_replicate, List.length_nil]; omega)]
  rw [List.length_replicate]
  omega

/-- C7 (amended): provided each individual write is at most the limit,
the tail buffer's length never exceeds the limit; on overflow the whole
older buffer is dropped (the result is either old bytes followed by the
new chunk, or the new chunk alone), so the bytes of the most recent
write are always retained as a suffix. -/
theorem claim7_tail_buffer :
    (∀ (limit : Nat) (ws : List (List Nat)), (∀ w ∈ ws, w.length ≤ limit) →
      (tailWrites limit ws).length ≤ limit)
    ∧ (∀ (limit : Nat) (buf p : List Nat), List.IsSuffix p (tailWrite limit buf p))
    ∧ (∀ (limit : Nat) (buf p : List Nat),
        tailWrite limit buf p = buf ++ p ∨ tailWrite limit buf p = p) := by
  refine ⟨fun limit ws hw => tailWrites_go limit ws [] (by simp) hw, ?_, ?_⟩
  · intro limit buf p
    unfold tailWrite
    split
    · exact ⟨[], rfl⟩
    · exact ⟨buf, rfl⟩
  · intro limit buf p
    unfold tailWrite
    split
    · exact Or.inr rfl
    · exact Or.inl rfl

/-- C7 witness: the amended cap and retention evaluated concretely. -/
theorem claim7_tail_buffer_witness :
    (tailWrites 4 [[1, 2, 3], [4, 5]]).length ≤ 4
    ∧ List.IsSuffix [4, 5] (tailWrite 4 [1, 2, 3] [4, 5]) :=
  ⟨claim7_tail_buffer.1 4 [[1, 2, 3], [4, 5]] (by decide),
    claim7_tail_buffer.2.1 4 [1, 2, 3] [4, 5]⟩

/-- C8 counterexample: a stderr tail reading "broken pipe" matches the
claim's pattern, yet the code does not suppress the nonzero exit,
because `brokenPipeRe` is the case-sensitive
`Broken pipe|pipe is being closed`. -/
theorem claim8_counterexample :
    claimBrokenPipePattern (str "broken pipe") = true
    ∧ waitResult (some (WaitErr.exitError (str "exit status 1"))) (str "broken pipe")
        = some (WaitErr.exitError (str "exit status 1")) := by
  decide

/-- C8 (amended): when the child exits with a nonzero status (an
`exec.ExitError`) and the captured stderr tail matches `brokenPipeRe`
(`Broken pipe|pipe is being closed`), the nonzero status is suppressed
and the wait step reports no error; for any other nonzero exit the wait
error is returned, and non-exit errors pass through unchanged. -/
theorem claim8_broken_pipe_suppression :
    (∀ (m tail : Str), brokenPipeMatch tail = true →
      waitResult (some (WaitErr.exitError m)) tail = none)
    ∧ (∀ (m tail : Str), brokenPipeMatch tail = false →
      waitResult (some (WaitErr.exitError m)) tail = some (WaitErr.exitError m))
    ∧ (∀ (m tail : Str), waitResult (some (WaitErr.otherErr m)) tail = some (WaitErr.otherErr m))
    ∧ (∀ tail : Str, waitResult none tail = none) := by
  refine ⟨?_, ?_, fun m tail => rfl, fun tail => rfl⟩
  · intro m tail h
    unfold waitResult
    rw [h]
    rfl
  · intro m tail h
    unfold waitResult
    rw [h]
    rfl

/-- C8 witness: suppression and pass-through evaluated concretely via
the claim theorem. -/
theorem claim8_broken_pipe_suppression_witness :
    waitResult (some (WaitErr.exitError (str "exit status 255")))
      (str "write: Broken pipe") = none
    ∧ waitResult (some (WaitErr.exitError (str "exit status 2"))) (str "oops")
        = some (WaitErr.exitError (str "exit status 2")) :=
  ⟨claim8_broken_pipe_suppression.1 (str "exit status 255") (str "write: Broken pipe") (by decide),
    claim8_broken_pipe_suppression.2.1 (str "exit status 2") (str "oops") (by decide)⟩

theorem mapInsert_keys_nodup {m : List (Nat × Nat)} (h : (m.map Prod.fst).Nodup)
    (k v : Nat) : ((mapInsert m k v).map Prod.fst).Nodup := by
  unfold mapInsert
  rw [List.map_cons]
  refine List.nodup_cons.mpr ⟨?_, ?_⟩
  · intro hk
    rcases List.mem_map.mp hk with ⟨p, hp, hpk⟩
    have hpred := List.of_mem_filter hp
    rw [bne_iff_ne] at hpred
    exact hpred hpk
  · exact List.Nodup.sublist (List.Sublist.map Prod.fst (List.filter_sublist m)) h

theorem mapDelete_keys_nodup {m : List (Nat × Nat)} (h : (m.map Prod.fst).Nodup)
    (k : Nat) : ((mapDelete m k).map Prod.fst).Nodup :=
  List.Nodup.sublist (List.Sublist.map Prod.fst (List.filter_sublist m)) h

theorem mem_mapInsert {m : List (Nat × Nat)} {p : Nat × Nat} {k v : Nat}
    (h : p ∈ mapInsert m k v) : p = (k, v) ∨ p ∈ m := by
  unfold mapInsert at h
  rcases List.mem_cons.mp h with h | h
  · exact Or.inl h
  · exact Or.inr (List.mem_of_mem_filter h)

theorem mem_mapDelete {m : List (Nat × Nat)} {p : Nat × Nat} {k : Nat}
    (h : p ∈ mapDelete m k) : p ∈ m :=
  List.mem_of_mem_filter h

theorem mapLookup_mem {m : List (Nat × Nat)} {k v : Nat}
    (h : mapLookup m k = some v) : (k, v) ∈ m := by
  unfold mapLookup at h
  rcases hf : m.find? (fun p => p.1 == k) with _ | p
  · rw [hf] at h
    simp at h
  · rw [hf] at h
    have hm := List.mem_of_find?_eq_some hf
    have hp := List.find?_some hf
    rw [beq_iff_eq] at hp
    simp at h
    have : p = (k, v) := by
      rcases p with ⟨p1, p2⟩
      simp at hp h
      rw [hp, h]
    rw [← this]
    exact hm

theorem mapLookup_mapDelete_self (m : List (Nat × Nat)) (k : Nat) :
    mapLookup (mapDelete m k) k = none := by
  unfold mapLookup mapDelete
  rw [List.find?_eq_none.mpr]
  · rfl
  intro p hp
  have hpred := List.of_mem_filter hp
  rw [bne_iff_ne] at hpred
  rw [beq_iff_eq]
  exact hpred

theorem inv_init : Inv initState := by
  refine ⟨rfl, rfl, List.nodup_nil, ?_⟩
  intro p hp
  exact absurd hp (List.not_mem_nil p)

theorem inv_register {s : TState} (hinv : Inv s) :
    Inv { s with
      pending := mapInsert s.pending s.seq s.total
      seq := (s.seq + 1) % U32
      total := s.total + 1
      regLog := s.regLog ++ [(s.seq, s.total)]
      wire := s.wire ++ [s.seq] } := by
  obtain ⟨h1, h2, h3, h4⟩ := hinv
  refine ⟨?_, ?_, mapInsert_keys_nodup h3 s.seq s.total, ?_⟩
  · show (s.seq + 1) % U32 = (s.total + 1) % U32
    rw [h1]
    exact Nat.mod_add_mod s.total U32 1
  · show s.regLog ++ [(s.seq, s.total)] = _
    rw [List.range_succ, List.map_append, h2, h1]
    rfl
  · intro p hp
    rcases mem_mapInsert hp with h | h
    · refine List.mem_append.mpr (Or.inr ?_)
      rw [h, h1]
      exact List.mem_singleton.mpr rfl
    · exact List.mem_append.mpr (Or.inl (h4 p h))

theorem executeModel_fst (s : TState) (a : Args) :
    (executeModel s a).1 = (newCallModel s a).1 := by
  unfold executeModel
  rcases h : newCallModel s a with ⟨s', o⟩
  cases o <;> simp

theorem newCallModel_fst (s : TState) (a : Args) :
    (newCallModel s a).1 = s ∨
      (s.shutdown = false ∧ s.closing = false ∧
        (newCallModel s a).1 = { s with
          pending := mapInsert s.pending s.seq s.total
          seq := (s.seq + 1) % U32
          total := s.total + 1
          regLog := s.regLog ++ [(s.seq, s.total)]
          wire := s.wire ++ [s.seq] }) := by
  unfold newCallModel
  rcases h : argsInit a with e | v
  · exact Or.inl rfl
  · by_cases hf : s.shutdown || s.closing
    · rw [if_pos hf]
      exact Or.inl rfl
    · rw [if_neg hf]
      rw [Bool.or_eq_true] at hf
      push_neg at hf
      exact Or.inr ⟨Bool.eq_false_iff.mpr hf.1 ▸ rfl, Bool.eq_false_iff.mpr hf.2 ▸ rfl, rfl⟩

theorem inv_step {s s' : TState} (hstep : Step s s') (hinv : Inv s) : Inv s' := by
  cases hstep with
  | execute a =>
    rw [executeModel_fst]
    rcases newCallModel_fst s a with h | ⟨_, _, h⟩
    · rw [h]; exact hinv
    · rw [h]; exact inv_register hinv
  | respond id =>
    obtain ⟨h1, h2, h3, h4⟩ := hinv
    exact ⟨h1, h2, mapDelete_keys_nodup h3 id, fun p hp => h4 p (mem_mapDelete hp)⟩
  | close connCloseErr =>
    obtain ⟨h1, h2, h3, h4⟩ := hinv
    unfold closeT
    split
    · exact ⟨h1, h2, h3, h4⟩
    · exact ⟨h1, h2, h3, h4⟩
  | exitLoop e =>
    obtain ⟨h1, h2, h3, h4⟩ := hinv
    exact ⟨h1, h2, h3, h4⟩

theorem reachable_inv {s : TState} (h : Reachable s) : Inv s := by
  induction h with
  | refl => exact inv_init
  | tail _ hstep ih => exact inv_step hstep ih

theorem step_closing_mono {s s' : TState} (h : Step s s') :
    s.closing = true → s'.closing = true := by
  cases h with
  | execute a =>
    intro hc
    rw [executeModel_fst]
    rcases newCallModel_fst s a with h | ⟨_, hcl, _⟩
    · rw [h]; exact hc
    · rw [hcl] at hc; exact absurd hc (by simp)
  | respond id => exact fun hc => hc
  | close connCloseErr =>
    intro hc
    simp [closeT, hc]
  | exitLoop e => exact fun hc => hc

theorem steps_closing_mono {s s' : TState} (h : Relation.ReflTransGen Step s s') :
    s.closing = true → s'.closing = true := by
  induction h with
  | refl => exact fun hc => hc
  | tail _ hstep ih => exact fun hc => step_closing_mono hstep (ih hc)

theorem regLog_mem_char {s : TState} (hinv : Inv s) {k r : Nat}
    (h : (k, r) ∈ s.regLog) : r < s.total ∧ k = r % U32 := by
  rw [hinv.2.1] at h
  rcases List.mem_map.mp h with ⟨n, hn, heq⟩
  rw [List.mem_range] at hn
  obtain ⟨h1, h2⟩ := Prod.mk.injEq .. ▸ heq
  refine ⟨?_, ?_⟩
  · rw [← h2]; exact hn
  · rw [← h1, ← h2]

/-- C1: in every reachable state the pending ids are pairwise distinct;
each successful registration in `newCall` assigns the current value of
the 32-bit counter and increments it mod 2^32, so as long as at most
2^32 registrations have happened the assigned ids are strictly
increasing; and a CompileResponse carrying id k completes exactly the
call that was registered under id k (unique while no wrap-around has
occurred) and removes id k from the map. -/
theorem claim1_id_uniqueness_and_routing :
    (∀ s : TState, Reachable s → (s.pending.map Prod.fst).Nodup)
    ∧ (∀ (s : TState) (a : Args) (v : ValidArgs), argsInit a = Except.ok v →
        s.shutdown = false → s.closing = false →
        (newCallModel s a).2 = CallOutcome.registered s.seq s.total
        ∧ (newCallModel s a).1.seq = (s.seq + 1) % U32)
    ∧ (∀ s : TState, Reachable s → s.total ≤ U32 →
        (s.regLog.map Prod.fst).Sorted (· < ·))
    ∧ (∀ (s : TState) (k ref : Nat), Reachable s → mapLookup s.pending k = some ref →
        (respondCompile s k).2 = some ref
        ∧ mapLookup (respondCompile s k).1.pending k = none
        ∧ (k, ref) ∈ s.regLog
        ∧ (s.total ≤ U32 → ∀ r', (k, r') ∈ s.regLog → r' = ref)) := by
  refine ⟨?_, ?_, ?_, ?_⟩
  · exact fun s h => (reachable_inv h).2.2.1
  · intro s a v hok hsd hcl
    unfold newCallModel
    rw [hok, hsd, hcl]
    exact ⟨rfl, rfl⟩
  · intro s h htot
    have hinv := reachable_inv h
    rw [hinv.2.1, List.map_map]
    have : (List.range s.total).map (Prod.fst ∘ fun n => (n % U32, n))
        = (List.range s.total).map id := by
      refine List.map_congr_left fun n hn => ?_
      rw [List.mem_range] at hn
      show n % U32 = n
      exact Nat.mod_eq_of_lt (Nat.lt_of_lt_of_le hn htot)
    rw [this, List.map_id]
    exact List.sorted_lt_range s.total
  · intro s k ref h hlk
    have hinv := reachable_inv h
    have hmem : (k, ref) ∈ s.pending := mapLookup_mem hlk
    have hreg : (k, ref) ∈ s.regLog := hinv.2.2.2 (k, ref) hmem
    refine ⟨hlk, mapLookup_mapDelete_self s.pending k, hreg, ?_⟩
    intro htot r' hr'
    obtain ⟨hlt, hk⟩ := regLog_mem_char hinv hr'
    obtain ⟨hlt2, hk2⟩ := regLog_mem_char hinv hreg
    have : r' = k := by
      rw [hk]
      exact (Nat.mod_eq_of_lt (Nat.lt_of_lt_of_le hlt htot)).symm
    have hrefk : ref = k := by
      rw [hk2]
      exact (Nat.mod_eq_of_lt (Nat.lt_of_lt_of_le hlt2 htot)).symm
    rw [this, hrefk]

/-- C1 witness: after one Execute on a fresh transpiler, the pending id
list is duplicate-free, the registration took id 0, the registration
log is sorted, and the CompileResponse for id 0 completes and removes
exactly that call. -/
theorem claim1_id_uniqueness_and_routing_witness :
    ((executeModel initState ⟨str "div", [], []⟩).1.pending.map Prod.fst).Nodup
    ∧ (newCallModel initState ⟨str "div", [], []⟩).2 = CallOutcome.registered 0 0
    ∧ ((executeModel initState ⟨str "div", [], []⟩).1.regLog.map Prod.fst).Sorted (· < ·)
    ∧ (respondCompile (executeModel initState ⟨str "div", [], []⟩).1 0).2 = some 0 := by
  have h := claim1_id_uniqueness_and_routing
  have hr : Reachable (executeModel initState ⟨str "div", [], []⟩).1 :=
    Relation.ReflTransGen.single (Step.execute initState ⟨str "div", [], []⟩)
  exact ⟨h.1 _ hr,
    (h.2.1 initState ⟨str "div", [], []⟩ ⟨2, 0⟩ rfl rfl rfl).1,
    h.2.2.1 _ hr (by decide),
    (h.2.2.2 _ 0 0 hr (by decide)).1⟩

/-- C2 counterexample: after an orderly Close (closing is set), an
Execute whose Args carry an invalid output style returns the validation
error, not ErrShutdown — `newCall` runs `init` before the
closing/shutdown check. -/
theorem claim2_counterexample :
    (closeT initState none).1.closing = true
    ∧ (executeModel (closeT initState none).1 ⟨str "a", [], str "asdf"⟩).2
        ≠ ExecResult.err GoErr.errShutdown := by
  decide

/-- C2 (amended): once Close has been called (the closing flag is set),
every subsequent Execute whose arguments pass validation returns
ErrShutdown (in the state Close produced and in every state reachable
from it), a second Close returns ErrShutdown, and the first orderly
Close returns the connection's close result (nil on orderly
shutdown). -/
theorem claim2_close_then_shutdown :
    ∀ (s : TState) (connCloseErr : Option GoErr), s.closing = false →
      (closeT s connCloseErr).2 = connCloseErr
      ∧ (closeT s connCloseErr).1.closing = true
      ∧ (∀ s' : TState, Relation.ReflTransGen Step (closeT s connCloseErr).1 s' →
          (∀ (a : Args) (v : ValidArgs), argsInit a = Except.ok v →
            (executeModel s' a).2 = ExecResult.err GoErr.errShutdown)
          ∧ ∀ e2 : Option GoErr, (closeT s' e2).2 = some GoErr.errShutdown) := by
  intro s connCloseErr hcl
  have hstate : closeT s connCloseErr = ({ s with closing := true }, connCloseErr) := by
    unfold closeT
    rw [if_neg (by rw [hcl]; exact Bool.false_ne_true)]
  refine ⟨by rw [hstate], by rw [hstate], ?_⟩
  intro s' hs'
  have hclosing : s'.closing = true := steps_closing_mono hs' (by rw [hstate])
  refine ⟨?_, ?_⟩
  · intro a v hok
    unfold executeModel newCallModel
    rw [hok, hclosing]
    simp
  · intro e2
    unfold closeT
    rw [if_pos hclosing]

/-- C2 witness: concretely, the first Close on a fresh transpiler
returns nil, a valid Execute afterwards returns ErrShutdown, and a
second Close returns ErrShutdown. -/
theorem claim2_close_then_shutdown_witness :
    (closeT initState none).2 = none
    ∧ (executeModel (closeT initState none).1 ⟨str "div", [], []⟩).2
        = ExecResult.err GoErr.errShutdown
    ∧ (closeT (closeT initState none).1 none).2 = some GoErr.errShutdown := by
  have h := claim2_close_then_shutdown initState none rfl
  exact ⟨h.1,
    (h.2.2 _ Relation.ReflTransGen.refl).1 ⟨str "div", [], []⟩ ⟨2, 0⟩ rfl,
    (h.2.2 _ Relation.ReflTransGen.refl).2 none⟩

/-- C3: when the reader loop exits with error e, the shutdown flag is
set, the terminating error is classified (io.EOF or an error containing
"already closed" becomes ErrShutdown if the closing flag is set, else
io.ErrUnexpectedEOF; any other error is kept as-is), and every call
still in the pending map is completed with that classified error; the
sweep leaves the map's entries in place. -/
theorem claim3_reader_loop_exit :
    ∀ (s : TState) (e : GoErr),
      (loopExit s e).1.shutdown = true
      ∧ (loopExit s e).1.pending = s.pending
      ∧ ((e = GoErr.eof ∨ hasSubstring e.text (str "already closed") = true) →
          (s.closing = true → (loopExit s e).2.1 = GoErr.errShutdown)
          ∧ (s.closing = false → (loopExit s e).2.1 = GoErr.unexpectedEOF))
      ∧ (¬(e = GoErr.eof ∨ hasSubstring e.text (str "already closed") = true) →
          (loopExit s e).2.1 = e)
      ∧ (loopExit s e).2.2 = s.pending.map (fun p => (p.2, (loopExit s e).2.1)) := by
  intro s e
  refine ⟨rfl, rfl, ?_, ?_, rfl⟩
  · intro hEof
    constructor
    · intro hcl
      show classifyExit s.closing e = GoErr.errShutdown
      unfold classifyExit
      rw [if_pos hEof, hcl]
      rfl
    · intro hcl
      show classifyExit s.closing e = GoErr.unexpectedEOF
      unfold classifyExit
      rw [if_pos hEof, hcl]
      rfl
  · intro hne
    show classifyExit s.closing e = e
    unfold classifyExit
    rw [if_neg hne]

/-- C3 witness: a terminating error whose text contains "already
closed", with the closing flag set and one pending call, is classified
as ErrShutdown and that call is completed with ErrShutdown; a
non-EOF-like error is kept as-is. -/
theorem claim3_reader_loop_exit_witness :
    (loopExit ⟨1, [(0, 0)], true, false, 1, [(0, 0)], [0]⟩
        (GoErr.other (str "file already closed"))).2.1 = GoErr.errShutdown
    ∧ (loopExit ⟨1, [(0, 0)], true, false, 1, [(0, 0)], [0]⟩
        (GoErr.other (str "file already closed"))).2.2 = [(0, GoErr.errShutdown)]
    ∧ (loopExit initState (GoErr.other (str "boom"))).2.1 = GoErr.other (str "boom") := by
  have h := claim3_reader_loop_exit ⟨1, [(0, 0)], true, false, 1, [(0, 0)], [0]⟩
    (GoErr.other (str "file already closed"))
  have h2 := claim3_reader_loop_exit initState (GoErr.other (str "boom"))
  have hc : (loopExit ⟨1, [(0, 0)], true, false, 1, [(0, 0)], [0]⟩
      (GoErr.other (str "file already closed"))).2.1 = GoErr.errShutdown :=
    (h.2.2.1 (Or.inr (by decide))).1 rfl
  refine ⟨hc, ?_, h2.2.2.2.1 (by decide)⟩
  rw [h.2.2.2.2, hc]
  rfl

/-- C4: when the Args carry a non-empty output style or source syntax
that is not a key of the corresponding enum map, `init` fails, Execute
returns that validation error, the whole Transpiler state — pending
map, id counter, and the ghost log of frames written to the child — is
unchanged, and a later Execute with valid arguments still registers
successfully. -/
theorem claim4_validation_before_wire :
    ∀ (s : TState) (a : Args),
      (a.outputStyle ≠ [] ∧ outputStyleValue a.outputStyle = none)
        ∨ (a.sourceSyntax ≠ [] ∧ syntaxValue a.sourceSyntax = none) →
      ∃ m : Str, argsInit a = Except.error (GoErr.validation m)
        ∧ executeModel s a = (s, ExecResult.err (GoErr.validation m))
        ∧ (∀ (a' : Args) (v : ValidArgs), argsInit a' = Except.ok v →
            s.shutdown = false → s.closing = false →
            (newCallModel s a').2 = CallOutcome.registered s.seq s.total) := by
  intro s a hbad
  have hlater : ∀ (a' : Args) (v : ValidArgs), argsInit a' = Except.ok v →
      s.shutdown = false → s.closing = false →
      (newCallModel s a').2 = CallOutcome.registered s.seq s.total := by
    intro a' v hok hsd hcl
    unfold newCallModel
    rw [hok, hsd, hcl]
    rfl
  have herr : ∃ m : Str, argsInit a = Except.error (GoErr.validation m) := by
    unfold argsInit
    rcases hbad with ⟨hne, hnone⟩ | ⟨hne, hnone⟩
    · simp only [if_neg hne]
      rw [hnone]
      exact ⟨_, rfl⟩
    · simp only [if_neg hne]
      rcases hsv : outputStyleValue (if a.outputStyle = [] then str "NESTED" else a.outputStyle) with _ | v
      · exact ⟨_, rfl⟩
      · rw [hnone]
        exact ⟨_, rfl⟩
  obtain ⟨m, hm⟩ := herr
  refine ⟨m, hm, ?_, hlater⟩
  unfold executeModel newCallModel
  rw [hm]

/-- C4 witness: Execute with output style "asdf" on a fresh transpiler
leaves the state untouched and a valid Execute from that same state
still registers under id 0. -/
theorem claim4_validation_before_wire_witness :
    (executeModel initState ⟨str "a", [], str "asdf"⟩).1 = initState
    ∧ (newCallModel initState ⟨str "div", [], []⟩).2 = CallOutcome.registered 0 0 := by
  obtain ⟨m, hinit, hexec, hlater⟩ := claim4_validation_before_wire initState
    ⟨str "a", [], str "asdf"⟩ (Or.inl ⟨by decide, by decide⟩)
  exact ⟨by rw [hexec], hlater ⟨str "div", [], []⟩ ⟨2, 0⟩ rfl rfl rfl⟩

/-- C5: for every CanonicalizeRequest dispatched by the reader loop
whose compilation id is pending, a resolver error yields a response
carrying the error's text, an empty resolved string yields a response
with an absent url, and a non-empty resolved string is echoed exactly
as the response's url. -/
theorem claim5_canonicalize_dispatch :
    ∀ (pending : List (Nat × Resolver)) (compId reqId : Nat) (u : Str) (r : Resolver),
      lookupResolver pending compId = some r →
      (∀ e : Str, r.canonicalizeURL u = Except.error e →
        canonicalizeArm pending compId reqId u
          = ArmResult.reply ⟨reqId, CanonResult.err e⟩)
      ∧ (r.canonicalizeURL u = Except.ok [] →
        canonicalizeArm pending compId reqId u
          = ArmResult.reply ⟨reqId, CanonResult.absent⟩)
      ∧ (∀ res : Str, r.canonicalizeURL u = Except.ok res → res ≠ [] →
        canonicalizeArm pending compId reqId u
          = ArmResult.reply ⟨reqId, CanonResult.url res⟩) := by
  intro pending compId reqId u r hlk
  refine ⟨?_, ?_, ?_⟩
  · intro e he
    simp [canonicalizeArm, hlk, he]
  · intro hok
    simp [canonicalizeArm, hlk, hok]
  · intro res hok hne
    simp [canonicalizeArm, hlk, hok, hne]

/-- C5 witness: the three canonicalize cases on a concrete resolver. -/
theorem claim5_canonicalize_dispatch_witness :
    canonicalizeArm [(0, canonResolverW)] 0 7 (str "colors")
      = ArmResult.reply ⟨7, CanonResult.url (str "file:/c.scss")⟩
    ∧ canonicalizeArm [(0, canonResolverW)] 0 8 (str "missing")
      = ArmResult.reply ⟨8, CanonResult.err (str "cannot resolve")⟩
    ∧ canonicalizeArm [(0, canonResolverW)] 0 9 (str "other")
      = ArmResult.reply ⟨9, CanonResult.absent⟩ := by
  refine ⟨?_, ?_, ?_⟩
  · exact (claim5_canonicalize_dispatch [(0, canonResolverW)] 0 7 (str "colors")
      canonResolverW rfl).2.2 (str "file:/c.scss") rfl (by decide)
  · exact (claim5_canonicalize_dispatch [(0, canonResolverW)] 0 8 (str "missing")
      canonResolverW rfl).1 (str "cannot resolve") rfl
  · exact (claim5_canonicalize_dispatch [(0, canonResolverW)] 0 9 (str "other")
      canonResolverW rfl).2.1 rfl

/-- C6: for every ImportRequest dispatched by the reader loop whose
compilation id is pending, a successful Load yields a success payload
carrying the returned content and syntax tag, with the source-map url
equal to the requested url exactly when `hasScheme` holds of it and
empty otherwise; a failed Load yields a response carrying the error's
text. -/
theorem claim6_import_dispatch :
    ∀ (pending : List (Nat × Resolver)) (compId reqId : Nat) (u : Str) (r : Resolver),
      lookupResolver pending compId = some r →
      (∀ imp : ImportRec, r.load u = Except.ok imp →
        (hasScheme u = true →
          importArm pending compId reqId u = ArmResult.reply
            ⟨reqId, ImportResult.success imp.content u ((syntaxValue imp.sourceSyntax).getD 0)⟩)
        ∧ (hasScheme u = false →
          importArm pending compId reqId u = ArmResult.reply
            ⟨reqId, ImportResult.success imp.content [] ((syntaxValue imp.sourceSyntax).getD 0)⟩))
      ∧ (∀ e : Str, r.load u = Except.error e →
        importArm pending compId reqId u = ArmResult.reply ⟨reqId, ImportResult.err e⟩) := by
  intro pending compId reqId u r hlk
  refine ⟨?_, ?_⟩
  · intro imp hok
    constructor
    · intro hs
      simp [importArm, hlk, hok, hs]
    · intro hs
      simp [importArm, hlk, hok, hs]
  · intro e he
    simp [importArm, hlk, he]

/-- C6 witness: Load success with and without a scheme on the
requested url, and a Load failure, on a concrete resolver. -/
theorem claim6_import_dispatch_witness :
    importArm [(3, importResolverW)] 3 11 (str "file:/c.scss")
      = ArmResult.reply ⟨11, ImportResult.success (str "a\x7bb:c\x7d") (str "file:/c.scss") 0⟩
    ∧ importArm [(3, importResolverW)] 3 12 (str "/bare/path")
      = ArmResult.reply ⟨12, ImportResult.success (str "x\x7by:z\x7d") [] 1⟩
    ∧ importArm [(3, importResolverW)] 3 13 (str "nope")
      = ArmResult.reply ⟨13, ImportResult.err (str "open failed")⟩ := by
  refine ⟨?_, ?_, ?_⟩
  · exact ((claim6_import_dispatch [(3, importResolverW)] 3 11 (str "file:/c.scss")
      importResolverW rfl).1 ⟨str "a\x7bb:c\x7d", str "SCSS"⟩ rfl).1 (by decide)
  · exact ((claim6_import_dispatch [(3, importResolverW)] 3 12 (str "/bare/path")
      importResolverW rfl).1 ⟨str "x\x7by:z\x7d", str "INDENTED"⟩ rfl).2 (by decide)
  · exact (claim6_import_dispatch [(3, importResolverW)] 3 13 (str "nope")
      importResolverW rfl).2 (str "open failed") rfl

/-- C10: a CanonicalizeRequest or ImportRequest whose compilation id is
not in the pending map makes the reader goroutine panic via `getCall`
with the "call with ID ... not found" message — it does not produce a
reply or a recoverable loop error. -/
theorem claim10_unknown_id_panics :
    ∀ (pending : List (Nat × Resolver)) (compId reqId : Nat) (u : Str),
      lookupResolver pending compId = none →
      canonicalizeArm pending compId reqId u = ArmResult.panicked (callNotFoundMsg compId)
      ∧ importArm pending compId reqId u = ArmResult.panicked (callNotFoundMsg compId)
      ∧ (∀ resp : CanonResponse,
          canonicalizeArm pending compId reqId u ≠ ArmResult.reply resp)
      ∧ (∀ resp : ImportResponse,
          importArm pending compId reqId u ≠ ArmResult.reply resp) := by
  intro pending compId reqId u hlk
  have hc : canonicalizeArm pending compId reqId u
      = ArmResult.panicked (callNotFoundMsg compId) := by
    unfold canonicalizeArm
    rw [hlk]
  have hi : importArm pending compId reqId u
      = ArmResult.panicked (callNotFoundMsg compId) := by
    unfold importArm
    rw [hlk]
  refine ⟨hc, hi, ?_, ?_⟩
  · intro resp h
    rw [hc] at h
    exact absurd h (by simp)
  · intro resp h
    rw [hi] at h
    exact absurd h (by simp)

/-- C10 witness: an empty pending map panics both arms with the
concrete message for id 5. -/
theorem claim10_unknown_id_panics_witness :
    canonicalizeArm [] 5 1 (str "colors")
      = ArmResult.panicked (str "call with ID 5 not found")
    ∧ importArm [] 5 1 (str "colors")
      = ArmResult.panicked (str "call with ID 5 not found") := by
  have h := claim10_unknown_id_panics [] 5 1 (str "colors") rfl
  have hmsg : callNotFoundMsg 5 = str "call with ID 5 not found" := by decide
  exact ⟨hmsg ▸ h.1, hmsg ▸ h.2.1⟩

end Godartsass
